import Mathlib

/-!
Shallow embedding of `src/common/list.c` (array-backed list with registered
iterators, from the slurm repository).  A list owns a contiguous array of
opaque element handles (`arr`), a logical `size`, a physical `capacity`, an
optional destructor flag (`fDel`), and a chain of bound iterators (`iNext`).
An iterator holds `pos` (index of the next element to yield) and `prev`
(index tracking the last yielded element).

External collaborators are parameters: the allocator is an oracle
`alloc : Nat → Bool` saying whether (re)allocation to a given capacity
succeeds (per C `realloc` semantics the surviving contents are preserved on
success; the code overwrites `l->arr` with the result, so on failure the
array pointer becomes null and the stored sequence is unreachable), and
libc `qsort` is a reordering function parameter.  The destructor callback
has no observable effect on list state beyond being invoked, so `fDel` is a
flag and destructor invocations are returned as the sequence of handles
passed to the callback.  Mutexes serialize operations and are not modelled;
every function below is the body of the corresponding C function with the
lock held.
-/

namespace SlurmList

/-- Cursor record: `pos` is the next index to yield, `prev` tracks the last
yielded index (field names from `struct listIterator`). -/
structure ListIterator where
  pos : Nat
  prev : Nat
deriving DecidableEq

/-- List record, from `struct xlist`.  `arr = none` models a null array
pointer; when allocated, the carried list holds the `size` occupied slots. -/
structure Xlist (H : Type) where
  arr : Option (List H)
  fDel : Bool
  size : Nat
  capacity : Nat
  iNext : List ListIterator
deriving DecidableEq

variable {H : Type}

/-- Occupied slots of the backing array (empty when the pointer is null). -/
def Xlist.elems (l : Xlist H) : List H := l.arr.getD []

/-- Allocator oracle that always succeeds. -/
def allocT : Nat → Bool := fun _ => true

/-- Allocator oracle that always fails. -/
def allocF : Nat → Bool := fun _ => false

/-- list_create: empty list with a destructor policy, null array. -/
def listCreate (fDel : Bool) : Xlist H :=
  { arr := none, fDel := fDel, size := 0, capacity := 0, iNext := [] }

/-- Iterator adjustment performed by the loop at the end of
`_list_node_create` for an insertion at index `p`: each of `prev` and `pos`
that equals `p` is bumped to `p + 1`. -/
def repairIns (p : Nat) (i : ListIterator) : ListIterator :=
  { pos := if i.pos = p then p + 1 else i.pos,
    prev := if i.prev = p then p + 1 else i.prev }

/-- Iterator adjustment performed by the loop at the end of
`_list_node_destroy` for a removal at index `p`: if `pos = p + 1` both
indices snap to `p`; otherwise if `prev = p + 1` only `prev` snaps to `p`. -/
def repairDel (p : Nat) (i : ListIterator) : ListIterator :=
  if i.pos = p + 1 then { pos := p, prev := p }
  else if i.prev = p + 1 then { pos := i.pos, prev := p }
  else i

/-- Capacity after the doubling step `l->capacity += l->capacity > 1 ?
l->capacity : 1` of `_list_grow`. -/
def grownCap (c : Nat) : Nat := c + (if c > 1 then c else 1)

/-- Model of _list_grow: when `size = capacity` the capacity is doubled (from 0 it
becomes 1) and the array is reallocated; the capacity field is updated
before the reallocation, and on failure the array pointer is overwritten
with the null result and `-1` is returned.  On success `size` is
incremented and the (new) capacity returned. -/
def listGrow (alloc : Nat → Bool) (l : Xlist H) : Int × Xlist H :=
  if l.size = l.capacity then
    if alloc (grownCap l.capacity) then
      (((grownCap l.capacity : Nat) : Int),
       { l with capacity := grownCap l.capacity, size := l.size + 1 })
    else
      (-1, { l with capacity := grownCap l.capacity, arr := none })
  else
    ((l.capacity : Int), { l with size := l.size + 1 })

/-- Model of _list_reserve: grows the array to exactly `n` slots; returns `-1`
without mutating when `n ≤ capacity`, and on allocation failure overwrites
the array pointer with null and returns `-1`; on success sets
`capacity = n` and returns `n`. -/
def listReserve (alloc : Nat → Bool) (l : Xlist H) (n : Int) : Int × Xlist H :=
  if n ≤ (l.capacity : Int) then (-1, l)
  else if alloc n.toNat then
    (n, { l with arr := some l.elems, capacity := n.toNat })
  else
    (-1, { l with arr := none })

/-- Model of _list_node_create: insert `x` at index `p` (`p ≤ size` or null is
returned).  Grows, shifts slots `[p, size)` right by one (`memmove`),
writes slot `p`, then repairs every bound iterator with `repairIns p`. -/
def nodeCreate (alloc : Nat → Bool) (l : Xlist H) (p : Nat) (x : H) :
    Option H × Xlist H :=
  if p > l.size then (none, l)
  else if (listGrow alloc l).1 < 0 then (none, (listGrow alloc l).2)
  else
    (some x, { (listGrow alloc l).2 with
                 arr := some (l.elems.insertIdx p x),
                 iNext := (listGrow alloc l).2.iNext.map (repairIns p) })

/-- Model of _list_node_destroy: remove index `p` (`p < size` or null is returned),
shifting slots `(p, size)` left by one, decrementing `size`, and repairing
every bound iterator with `repairDel p`.  Returns the removed handle. -/
def nodeDestroy (l : Xlist H) (p : Nat) : Option H × Xlist H :=
  if p ≥ l.size then (none, l)
  else
    (l.elems.get? p,
     { l with arr := some (l.elems.eraseIdx p),
              size := l.size - 1,
              iNext := l.iNext.map (repairDel p) })

/-- Model of _list_pop_locked and list_pop: remove index 0. -/
def listPop (l : Xlist H) : Option H × Xlist H := nodeDestroy l 0

/-- list_dequeue: remove index 0. -/
def listDequeue (l : Xlist H) : Option H × Xlist H := nodeDestroy l 0

/-- Model of _list_append_locked, list_append and list_enqueue: insert at index
`size`. -/
def listAppend (alloc : Nat → Bool) (l : Xlist H) (x : H) : Option H × Xlist H :=
  nodeCreate alloc l l.size x

/-- list_enqueue: alias of the append path. -/
def listEnqueue (alloc : Nat → Bool) (l : Xlist H) (x : H) : Option H × Xlist H :=
  nodeCreate alloc l l.size x

/-- list_prepend: insert at index 0. -/
def listPrepend (alloc : Nat → Bool) (l : Xlist H) (x : H) : Option H × Xlist H :=
  nodeCreate alloc l 0 x

/-- list_push: insert at index 0 (queue-style alias of prepend). -/
def listPush (alloc : Nat → Bool) (l : Xlist H) (x : H) : Option H × Xlist H :=
  nodeCreate alloc l 0 x

/-- list_iterator_create: fresh cursor spliced onto the head of the
list's iterator chain. -/
def iteratorCreate (l : Xlist H) : ListIterator × Xlist H :=
  ({ pos := 0, prev := 0 },
   { l with iNext := { pos := 0, prev := 0 } :: l.iNext })

/-- list_iterator_reset: both indices back to the head. -/
def iteratorReset (_i : ListIterator) : ListIterator := { pos := 0, prev := 0 }

/-- Model of _list_next_locked: if `prev ≠ pos`, step `prev` by one; then if
`pos < size` yield slot `pos` and advance `pos`, otherwise yield none. -/
def nextLocked (l : Xlist H) (i : ListIterator) : Option H × ListIterator :=
  if i.pos < l.size then
    (l.elems.get? i.pos,
     { pos := i.pos + 1, prev := if i.prev ≠ i.pos then i.prev + 1 else i.prev })
  else
    (none, { pos := i.pos, prev := if i.prev ≠ i.pos then i.prev + 1 else i.prev })

/-- list_remove: remove the element at the cursor's `prev` index, but only
when `prev ≠ pos` (the cursor has yielded since the last reset/removal). -/
def listRemoveItr (l : Xlist H) (i : ListIterator) : Option H × Xlist H :=
  if i.prev ≠ i.pos then nodeDestroy l i.prev else (none, l)

/-- list_insert (iterator insert): insert at the cursor's `prev` index. -/
def listInsertItr (alloc : Nat → Bool) (l : Xlist H) (i : ListIterator) (x : H) :
    Option H × Xlist H :=
  nodeCreate alloc l i.prev x

/-- list_remove_first: scan from index `i` for the first handle matching
`f` and remove it (no destructor call).  Fuel bounds the C `while` loop;
`l.size + 1` steps always suffice since each step either advances `i` or
removes an element. -/
def removeFirstLoop [Inhabited H] (f : H → Bool) :
    Nat → Nat → Xlist H → Option H × Xlist H
  | 0, _, l => (none, l)
  | fuel + 1, i, l =>
    if i < l.size then
      if f (l.elems.getD i default) then nodeDestroy l i
      else removeFirstLoop f fuel (i + 1) l
    else (none, l)

/-- list_remove_first entry point. -/
def listRemoveFirst [Inhabited H] (l : Xlist H) (f : H → Bool) : Option H × Xlist H :=
  removeFirstLoop f (l.size + 1) 0 l

/-- list_delete_all: scan removing every handle matching `f`, invoking the
destructor on each when set; returns the count and the destructor-call
sequence.  Fuel as in `removeFirstLoop`. -/
def deleteAllLoop [Inhabited H] (f : H → Bool) :
    Nat → Nat → Xlist H → Int → List H → Int × List H × Xlist H
  | 0, _, l, n, dc => (n, dc, l)
  | fuel + 1, i, l, n, dc =>
    if i < l.size then
      if f (l.elems.getD i default) then
        match nodeDestroy l i with
        | (some v, l') =>
            deleteAllLoop f fuel i l' (n + 1) (dc ++ if l.fDel then [v] else [])
        | (none, l') => deleteAllLoop f fuel i l' n dc
      else deleteAllLoop f fuel (i + 1) l n dc
    else (n, dc, l)

/-- list_delete_all entry point. -/
def listDeleteAll [Inhabited H] (l : Xlist H) (f : H → Bool) : Int × List H × Xlist H :=
  deleteAllLoop f (l.size + 1) 0 l 0 []

/-- list_delete_ptr: scan for the first handle equal to `key`, remove it,
invoke the destructor when set, and return 1; 0 when nothing matched. -/
def deletePtrLoop [Inhabited H] [DecidableEq H] (key : H) :
    Nat → Nat → Xlist H → Int × List H × Xlist H
  | 0, _, l => (0, [], l)
  | fuel + 1, i, l =>
    if i < l.size then
      if l.elems.getD i default = key then
        match nodeDestroy l i with
        | (some v, l') => (1, if l.fDel then [v] else [], l')
        | (none, l') => deletePtrLoop key fuel i l'
      else deletePtrLoop key fuel (i + 1) l
    else (0, [], l)

/-- list_delete_ptr entry point. -/
def listDeletePtr [Inhabited H] [DecidableEq H] (l : Xlist H) (key : H) :
    Int × List H × Xlist H :=
  deletePtrLoop key (l.size + 1) 0 l

/-- list_flush: when a destructor is set, invoke it on each occupied slot,
counting as it goes (so the count stays 0 with no destructor); then zero
`size` and reset every bound iterator to the head.  Returns the count and
the destructor-call sequence. -/
def listFlush (l : Xlist H) : Int × List H × Xlist H :=
  ((if l.fDel then (l.size : Int) else 0),
   (if l.fDel then l.elems.take l.size else []),
   { l with size := 0,
            iNext := l.iNext.map (fun _ => { pos := 0, prev := 0 }) })

/-- list_sort: early return (no iterator reset) when `size ≤ 1`; otherwise
reorder the occupied slots with libc `qsort` (modelled as the reordering
parameter `qsortF`, which carries the comparator) and reset every bound
iterator to the head. -/
def listSort (qsortF : List H → List H) (l : Xlist H) : Xlist H :=
  if l.size ≤ 1 then l
  else
    { l with arr := some (qsortF (l.elems.take l.size)),
             iNext := l.iNext.map (fun _ => { pos := 0, prev := 0 }) }

/-- Swap of slots `a` and `b` (the body of list_flip's while loop). -/
def swapNodes (es : List H) (a b : Nat) : List H :=
  match es.get? a, es.get? b with
  | some x, some y => (es.set a y).set b x
  | _, _ => es

/-- list_flip's while loop: swap slot `idx` with slot `sz - 1 - idx` while
`idx < sz / 2`. -/
def flipLoop (sz : Nat) (idx : Nat) (es : List H) : List H :=
  if idx < sz / 2 then flipLoop sz (idx + 1) (swapNodes es idx (sz - 1 - idx))
  else es
termination_by sz / 2 - idx
decreasing_by omega

/-- list_flip: early return (no iterator reset) when `size ≤ 1`; otherwise
reverse the occupied slots in place and reset every bound iterator to the
head. -/
def listFlip (l : Xlist H) : Xlist H :=
  if l.size ≤ 1 then l
  else
    { l with arr := some (flipLoop l.size 0 l.elems),
             iNext := l.iNext.map (fun _ => { pos := 0, prev := 0 }) }

/-- list_transfer_max's while loop: while `max` is zero or `n ≤ max`, pop
the head of `sub` and append it to `l` (the append result is not checked).
Fuel bounds the loop; `sub.size + 1` steps always suffice because every
recursive step consumes one element of `sub` and the loop stops at the
first failed pop. -/
def transferMaxLoop (alloc : Nat → Bool) :
    Nat → Xlist H → Xlist H → Int → Int → Int × Xlist H × Xlist H
  | 0, l, sub, _, n => (n, l, sub)
  | fuel + 1, l, sub, max, n =>
    if max = 0 ∨ n ≤ max then
      match listPop sub with
      | (none, sub') => (n, l, sub')
      | (some v, sub') =>
          transferMaxLoop alloc fuel (listAppend alloc l v).2 sub' max (n + 1)
    else (n, l, sub)

/-- list_transfer_max: pop elements off the front of `sub` and append them
to `l` under the loop condition `!max || n <= max`; returns the count
appended with the final states of both lists. -/
def listTransferMax (alloc : Nat → Bool) (l sub : Xlist H) (max : Int) :
    Int × Xlist H × Xlist H :=
  transferMaxLoop alloc (sub.size + 1) l sub max 0

/-- list_transfer: transfer with no bound. -/
def listTransfer (alloc : Nat → Bool) (l sub : Xlist H) : Int × Xlist H × Xlist H :=
  listTransferMax alloc l sub 0

/-- list_shallow_copy: create a destructor-less list, reserve `size`
slots (failing, and so returning null, when the reservation fails — which
includes the `n ≤ capacity` rejection of `n = 0` for an empty source), set
its size and copy the occupied slots. -/
def shallowCopy (alloc : Nat → Bool) (l : Xlist H) : Option (Xlist H) :=
  if (listReserve alloc (listCreate false : Xlist H) (l.size : Int)).1 < 0 then none
  else
    some { (listReserve alloc (listCreate false : Xlist H) (l.size : Int)).2 with
             size := l.size, arr := some (l.elems.take l.size) }

/-- list_count: 0 for a null list handle, otherwise the resident size. -/
def listCount (l : Option (Xlist H)) : Int :=
  match l with
  | none => 0
  | some l => (l.size : Int)

/-- list_is_empty. -/
def listIsEmpty (l : Xlist H) : Bool := l.size == 0

/-- Repeated advance: collect the handles yielded by `nextLocked` until it
yields none or fuel runs out. -/
def runIter (l : Xlist H) : ListIterator → Nat → List H
  | _, 0 => []
  | i, fuel + 1 =>
    match nextLocked l i with
    | (none, _) => []
    | (some v, i') => v :: runIter l i' fuel

/-- Full traversal of a list from a fresh cursor (`size + 1` advances
always reach exhaustion when the list is not mutated in between). -/
def traverse (l : Xlist H) : List H :=
  runIter l { pos := 0, prev := 0 } (l.size + 1)

/-- Concrete list `[1, 2, 3]` whose single cursor has yielded twice and then
hit an advance past the end (`pos = prev = 2` is not reachable, but any
`pos`/`prev` pair serves the repair lemmas). -/
def sampleThree : Xlist Nat :=
  { arr := some [1, 2, 3], fDel := false, size := 3, capacity := 3,
    iNext := [{ pos := 2, prev := 2 }] }

/-- Concrete three-element source list for the transfer scenario. -/
def sampleXYZ : Xlist Nat :=
  { arr := some [1, 2, 3], fDel := false, size := 3, capacity := 3, iNext := [] }

/-- Concrete two-element list without a destructor. -/
def twoNoDel : Xlist Nat :=
  { arr := some [1, 2], fDel := false, size := 2, capacity := 2, iNext := [] }

/-- Concrete two-element list whose cursor has advanced twice (`pos = 2`,
`prev = 1`, the state after yielding both elements). -/
def twoWithCursor : Xlist Nat :=
  { arr := some [1, 2], fDel := false, size := 2, capacity := 2,
    iNext := [{ pos := 2, prev := 1 }] }

/-- Concrete one-element list whose cursor has yielded the element and is
exhausted (`pos = size = 1`). -/
def oneExhausted : Xlist Nat :=
  { arr := some [10], fDel := false, size := 1, capacity := 1,
    iNext := [{ pos := 1, prev := 0 }] }

/-- Concrete one-element list whose cursor has advanced once. -/
def oneAdvanced : Xlist Nat :=
  { arr := some [5], fDel := false, size := 1, capacity := 1,
    iNext := [{ pos := 1, prev := 0 }] }

/-- Concrete one-element list at full capacity, no cursors. -/
def oneFull : Xlist Nat :=
  { arr := some [7], fDel := false, size := 1, capacity := 1, iNext := [] }

/-- Concrete two-element list with a destructor set and no cursors. -/
def twoWithDel : Xlist Nat :=
  { arr := some [8, 9], fDel := true, size := 2, capacity := 2, iNext := [] }

/-! Helper lemmas about the growth path and the repair maps. -/

/-- Growth never touches the iterator chain (either it fails before the
repair loop or the loop belongs to the caller). -/
theorem listGrow_iNext_eq (alloc : Nat → Bool) (l : Xlist H) :
    (listGrow alloc l).2.iNext = l.iNext := by
  unfold listGrow
  split_ifs <;> rfl

/-- Under a perfect allocator, growth succeeds, increments `size` and leaves
the array contents, iterator chain and destructor flag alone. -/
theorem listGrow_allocT_spec (l : Xlist H) :
    ¬ (listGrow allocT l).1 < 0 ∧
    (listGrow allocT l).2.size = l.size + 1 ∧
    (listGrow allocT l).2.arr = l.arr ∧
    (listGrow allocT l).2.iNext = l.iNext ∧
    (listGrow allocT l).2.fDel = l.fDel := by
  unfold listGrow
  split_ifs with h1 h2
  · exact ⟨by omega, rfl, rfl, rfl, rfl⟩
  · simp [allocT] at h2
  · exact ⟨by omega, rfl, rfl, rfl, rfl⟩

/-- Under a perfect allocator, inserting at a legal index returns the handle,
increments `size`, inserts into the occupied slots and repairs the chain. -/
theorem nodeCreate_allocT_spec (l : Xlist H) (p : Nat) (x : H) (hp : p ≤ l.size) :
    (nodeCreate allocT l p x).1 = some x ∧
    (nodeCreate allocT l p x).2.size = l.size + 1 ∧
    (nodeCreate allocT l p x).2.arr = some (l.elems.insertIdx p x) ∧
    (nodeCreate allocT l p x).2.iNext = l.iNext.map (repairIns p) ∧
    (nodeCreate allocT l p x).2.fDel = l.fDel := by
  obtain ⟨h1, h2, h3, h4, h5⟩ := listGrow_allocT_spec l
  unfold nodeCreate
  rw [if_neg (by omega), if_neg h1]
  exact ⟨rfl, h2, rfl, by rw [show ({ (listGrow allocT l).2 with
      arr := some (l.elems.insertIdx p x),
      iNext := (listGrow allocT l).2.iNext.map (repairIns p) } : Xlist H).iNext
      = (listGrow allocT l).2.iNext.map (repairIns p) from rfl, h4], h5⟩

/-- The insertion repair preserves `prev ≤ pos`. -/
theorem repairIns_prev_le_pos (p : Nat) (i : ListIterator) (h : i.prev ≤ i.pos) :
    (repairIns p i).prev ≤ (repairIns p i).pos := by
  simp only [repairIns]
  split_ifs <;> omega

/-- The removal repair preserves `prev ≤ pos`. -/
theorem repairDel_prev_le_pos (p : Nat) (i : ListIterator) (h : i.prev ≤ i.pos) :
    (repairDel p i).prev ≤ (repairDel p i).pos := by
  simp only [repairDel]
  split_ifs with h1 h2
  · simp
  · simp
    omega
  · exact h

/-- Advancing depends only on the occupied slots and the size, so two lists
agreeing on those drive a cursor identically. -/
theorem runIter_congr (a b : Xlist H) (hs : a.size = b.size)
    (he : a.elems = b.elems) : ∀ fuel i, runIter a i fuel = runIter b i fuel := by
  intro fuel
  induction fuel with
  | zero => intro i; rfl
  | succ n ih =>
    intro i
    have hn : nextLocked a i = nextLocked b i := by
      unfold nextLocked
      rw [hs, he]
    rw [runIter, runIter, hn]
    cases hx : nextLocked b i with
    | mk v i' => cases v <;> simp [ih]

/-! Claim theorems. -/

/-- C1: a removal at index `k` (the `_list_node_destroy` primitive, through
which remove_at, pop, dequeue, remove_first, delete_all, delete_ptr and the
iterator remove all remove) repairs every bound iterator with `repairDel k`:
an iterator whose `pos` (next_index) equals `k + 1` has both indices set to
`k`; otherwise one whose `prev` (last_yielded_index) equals `k + 1` has
`prev` set to `k` with `pos` unchanged; and an iterator with both indices
strictly below `k` is unchanged. -/
theorem nodeDestroy_repairs_iterators (l : Xlist H) (k : Nat) (hk : k < l.size)
    (i : ListIterator) :
    (nodeDestroy l k).2.iNext = l.iNext.map (repairDel k) ∧
    (i.pos = k + 1 → (repairDel k i).pos = k ∧ (repairDel k i).prev = k) ∧
    (i.pos ≠ k + 1 → i.prev = k + 1 →
      (repairDel k i).pos = i.pos ∧ (repairDel k i).prev = k) ∧
    (i.pos < k → i.prev < k → repairDel k i = i) := by
  refine ⟨?_, ?_, ?_, ?_⟩
  · have h : ¬ k ≥ l.size := by omega
    simp [nodeDestroy, h]
  · intro h
    simp [repairDel, h]
  · intro h1 h2
    simp [repairDel, h1, h2]
  · intro h1 h2
    have g1 : ¬ i.pos = k + 1 := by omega
    have g2 : ¬ i.prev = k + 1 := by omega
    simp [repairDel, g1, g2]

/-- C1 witness: the repair rules applied to the concrete removal of index 1
from `[1, 2, 3]` and the concrete cursor `⟨2, 0⟩`. -/
theorem nodeDestroy_repairs_iterators_witness :
    1 < sampleThree.size ∧
    ((nodeDestroy sampleThree 1).2.iNext = sampleThree.iNext.map (repairDel 1) ∧
     (({ pos := 2, prev := 0 } : ListIterator).pos = 1 + 1 →
       (repairDel 1 { pos := 2, prev := 0 }).pos = 1 ∧
       (repairDel 1 { pos := 2, prev := 0 }).prev = 1) ∧
     (({ pos := 2, prev := 0 } : ListIterator).pos ≠ 1 + 1 →
       ({ pos := 2, prev := 0 } : ListIterator).prev = 1 + 1 →
       (repairDel 1 { pos := 2, prev := 0 }).pos
           = ({ pos := 2, prev := 0 } : ListIterator).pos ∧
       (repairDel 1 { pos := 2, prev := 0 }).prev = 1) ∧
     (({ pos := 2, prev := 0 } : ListIterator).pos < 1 →
       ({ pos := 2, prev := 0 } : ListIterator).prev < 1 →
       repairDel 1 { pos := 2, prev := 0 } = { pos := 2, prev := 0 })) :=
  ⟨by decide,
   nodeDestroy_repairs_iterators sampleThree 1 (by decide) { pos := 2, prev := 0 }⟩

/-- C2: evaluating `list_transfer_max(dest, src, 2)` on `src = [1, 2, 3]`
with an empty destination.  The loop condition `!max || n <= max` admits
`max + 1` iterations, so the code transfers all three elements and returns
3, contradicting the claim (and the function's own header comment) that at
most `max = 2` elements move with 2 returned. -/
theorem transferMax_overshoots_on_xyz :
    (listTransferMax allocT (listCreate false) sampleXYZ 2).1 = 3 ∧
    (listTransferMax allocT (listCreate false) sampleXYZ 2).2.1.elems = [1, 2, 3] ∧
    (listTransferMax allocT (listCreate false) sampleXYZ 2).2.2.size = 0 := by
  decide

/-- C3 counterexample: a cursor on the one-element list `[10]` that has
yielded the element is exhausted (`pos = 1 = size`); appending `20` bumps
its `pos` to 2 along with the size (the insert repair fires at the append
index), so the next advance still yields none — not the appended handle as
the claim states. -/
theorem append_after_exhaustion_yields_none :
    oneExhausted.iNext = [{ pos := 1, prev := 0 }] ∧
    oneExhausted.size = 1 ∧
    (listAppend allocT oneExhausted 20).2.size = 2 ∧
    (listAppend allocT oneExhausted 20).2.iNext = [{ pos := 2, prev := 0 }] ∧
    (nextLocked (listAppend allocT oneExhausted 20).2 { pos := 2, prev := 0 }).1
      = none := by
  decide

/-- C3 amended: exhaustion is terminal under append.  Appending when a bound
iterator's `pos` equals the list's size routes the insert repair through the
append index, bumping that `pos` to the new size, so a subsequent advance
still yields none; appended elements only become reachable through an
explicit reset. -/
theorem append_keeps_iterator_exhausted (l : Xlist H) (x : H) (i : ListIterator)
    (h : i.pos = l.size) :
    (listAppend allocT l x).2.size = l.size + 1 ∧
    (listAppend allocT l x).2.iNext = l.iNext.map (repairIns l.size) ∧
    (repairIns l.size i).pos = l.size + 1 ∧
    (nextLocked (listAppend allocT l x).2 (repairIns l.size i)).1 = none := by
  obtain ⟨h1, h2, h3, h4, h5⟩ := nodeCreate_allocT_spec l l.size x (le_refl _)
  have hA : listAppend allocT l x = nodeCreate allocT l l.size x := rfl
  have hpos : (repairIns l.size i).pos = l.size + 1 := by
    simp [repairIns, h]
  rw [hA]
  refine ⟨h2, h4, hpos, ?_⟩
  unfold nextLocked
  rw [if_neg]
  rw [hpos, h2]
  omega

/-- C3 amended witness: the concrete exhausted cursor `⟨1, 0⟩` on `[10]`. -/
theorem append_keeps_iterator_exhausted_witness :
    ({ pos := 1, prev := 0 } : ListIterator).pos = oneExhausted.size ∧
    ((listAppend allocT oneExhausted 30).2.size = oneExhausted.size + 1 ∧
     (listAppend allocT oneExhausted 30).2.iNext
       = oneExhausted.iNext.map (repairIns oneExhausted.size) ∧
     (repairIns oneExhausted.size { pos := 1, prev := 0 }).pos
       = oneExhausted.size + 1 ∧
     (nextLocked (listAppend allocT oneExhausted 30).2
        (repairIns oneExhausted.size { pos := 1, prev := 0 })).1 = none) :=
  ⟨by decide,
   append_keeps_iterator_exhausted oneExhausted 30 { pos := 1, prev := 0 } (by decide)⟩

/-- C4 counterexample: on `[1, 2]` with a cursor that has advanced twice
(`pos = 2`, `prev = 1`), removing index 0 shrinks the size to 1 but leaves
`pos = 2` (the removal repair only looks at indices `k` and `k + 1`), so the
claimed bound `pos ≤ size` fails after the mutation. -/
theorem removal_leaves_pos_beyond_size :
    (nodeDestroy twoWithCursor 0).2.size = 1 ∧
    (nodeDestroy twoWithCursor 0).2.iNext = [{ pos := 2, prev := 0 }] ∧
    ¬ (∀ j ∈ (nodeDestroy twoWithCursor 0).2.iNext,
         j.pos ≤ (nodeDestroy twoWithCursor 0).2.size ∧
         j.prev ≤ (nodeDestroy twoWithCursor 0).2.size) := by
  decide

/-- C4 amended: after every structural mutation (insertion at any index,
removal at any index, flush, sort, flip) every bound iterator still
satisfies `prev ≤ pos` (last_yielded_index ≤ next_index), but the indices
need not stay within `[0, size]`: removals do not shift down iterators
positioned past the removed index plus one. -/
theorem mutations_preserve_prev_le_pos (alloc : Nat → Bool) (l : Xlist H)
    (p k : Nat) (x : H) (q : List H → List H)
    (hwf : ∀ i ∈ l.iNext, i.prev ≤ i.pos) :
    (∀ i ∈ (nodeCreate alloc l p x).2.iNext, i.prev ≤ i.pos) ∧
    (∀ i ∈ (nodeDestroy l k).2.iNext, i.prev ≤ i.pos) ∧
    (∀ i ∈ (listFlush l).2.2.iNext, i.prev ≤ i.pos) ∧
    (∀ i ∈ (listSort q l).iNext, i.prev ≤ i.pos) ∧
    (∀ i ∈ (listFlip l).iNext, i.prev ≤ i.pos) := by
  refine ⟨?_, ?_, ?_, ?_, ?_⟩
  · unfold nodeCreate
    split_ifs with h1 h2
    · exact hwf
    · rw [listGrow_iNext_eq]
      exact hwf
    · intro i hi
      simp only [listGrow_iNext_eq, List.mem_map] at hi
      obtain ⟨j, hj, rfl⟩ := hi
      exact repairIns_prev_le_pos p j (hwf j hj)
  · unfold nodeDestroy
    split_ifs with h1
    · exact hwf
    · intro i hi
      simp only [List.mem_map] at hi
      obtain ⟨j, hj, rfl⟩ := hi
      exact repairDel_prev_le_pos k j (hwf j hj)
  · intro i hi
    simp only [listFlush, List.mem_map] at hi
    obtain ⟨j, hj, rfl⟩ := hi
    exact le_refl 0
  · unfold listSort
    split_ifs with h1
    · exact hwf
    · intro i hi
      simp only [List.mem_map] at hi
      obtain ⟨j, hj, rfl⟩ := hi
      exact le_refl 0
  · unfold listFlip
    split_ifs with h1
    · exact hwf
    · intro i hi
      simp only [List.mem_map] at hi
      obtain ⟨j, hj, rfl⟩ := hi
      exact le_refl 0

/-- C4 amended witness: the preserved half of the invariant on the concrete
list `[1, 2]` with cursor `⟨2, 1⟩`, for insertion at 0, removal at 0, flush,
sort and flip. -/
theorem mutations_preserve_prev_le_pos_witness :
    (∀ i ∈ twoWithCursor.iNext, i.prev ≤ i.pos) ∧
    ((∀ i ∈ (nodeCreate allocT twoWithCursor 0 9).2.iNext, i.prev ≤ i.pos) ∧
     (∀ i ∈ (nodeDestroy twoWithCursor 0).2.iNext, i.prev ≤ i.pos) ∧
     (∀ i ∈ (listFlush twoWithCursor).2.2.iNext, i.prev ≤ i.pos) ∧
     (∀ i ∈ (listSort id twoWithCursor).iNext, i.prev ≤ i.pos) ∧
     (∀ i ∈ (listFlip twoWithCursor).iNext, i.prev ≤ i.pos)) :=
  ⟨by decide,
   mutations_preserve_prev_le_pos allocT twoWithCursor 0 0 9 id (by decide)⟩

/-- C5 counterexample: appending to the full one-element list `[7]` under a
failing allocator returns the null indicator, but the list is not left in
its prior state: the capacity field has already been doubled to 2 and the
array pointer is overwritten with the failed (null) allocation. -/
theorem grow_failure_changes_capacity :
    (nodeCreate allocF oneFull 1 8).1 = none ∧
    (nodeCreate allocF oneFull 1 8).2.size = oneFull.size ∧
    (nodeCreate allocF oneFull 1 8).2.capacity = 2 ∧
    ¬ (nodeCreate allocF oneFull 1 8).2.capacity = oneFull.capacity ∧
    (nodeCreate allocF oneFull 1 8).2.arr = none ∧
    ¬ (nodeCreate allocF oneFull 1 8).2.arr = oneFull.arr := by
  decide

/-- C5 amended: when the allocator fails during growth on an insertion the
operation returns the null indicator and leaves `size` and the iterator
chain unchanged, but the capacity field has already been updated to the
doubled value and the array pointer is overwritten with the null result, so
the capacity changes and the stored element sequence is lost. -/
theorem grow_failure_state (alloc : Nat → Bool) (l : Xlist H) (p : Nat) (x : H)
    (hp : p ≤ l.size) (hfull : l.size = l.capacity)
    (hfail : alloc (grownCap l.capacity) = false) :
    (nodeCreate alloc l p x).1 = none ∧
    (nodeCreate alloc l p x).2.size = l.size ∧
    (nodeCreate alloc l p x).2.iNext = l.iNext ∧
    (nodeCreate alloc l p x).2.fDel = l.fDel ∧
    (nodeCreate alloc l p x).2.capacity = grownCap l.capacity ∧
    (nodeCreate alloc l p x).2.arr = none := by
  have hg : listGrow alloc l =
      (-1, { l with capacity := grownCap l.capacity, arr := none }) := by
    unfold listGrow
    rw [if_pos hfull, if_neg (by simp [hfail])]
  unfold nodeCreate
  rw [if_neg (by omega), hg]
  norm_num

/-- C5 amended witness: the failing allocator on the concrete full list
`[7]`. -/
theorem grow_failure_state_witness :
    (1 ≤ oneFull.size ∧ oneFull.size = oneFull.capacity ∧
     allocF (grownCap oneFull.capacity) = false) ∧
    ((nodeCreate allocF oneFull 1 9).1 = none ∧
     (nodeCreate allocF oneFull 1 9).2.size = oneFull.size ∧
     (nodeCreate allocF oneFull 1 9).2.iNext = oneFull.iNext ∧
     (nodeCreate allocF oneFull 1 9).2.fDel = oneFull.fDel ∧
     (nodeCreate allocF oneFull 1 9).2.capacity = grownCap oneFull.capacity ∧
     (nodeCreate allocF oneFull 1 9).2.arr = none) :=
  ⟨by decide,
   grow_failure_state allocF oneFull 1 9 (by decide) (by decide) (by decide)⟩

/-- C6 counterexample: flushing the destructor-less list `[1, 2]` removes
both elements (size drops from 2 to 0) yet returns 0, not the count of
elements removed — the counting happens only inside the destructor loop. -/
theorem flush_without_destructor_returns_zero :
    twoNoDel.size = 2 ∧
    twoNoDel.fDel = false ∧
    (listFlush twoNoDel).2.2.size = 0 ∧
    (listFlush twoNoDel).1 = 0 ∧
    ¬ (listFlush twoNoDel).1 = 2 := by
  decide

/-- C6 amended: flush removes all elements and resets every bound iterator
to the fresh state; when a destructor is set it is invoked exactly once per
formerly-resident element (the destructor-call sequence is exactly the
occupied slots) and the element count is returned, but when no destructor
is set the counting loop is skipped and flush returns 0 even though the
elements were removed. -/
theorem flush_behavior (l : Xlist H) (hwf : l.elems.length = l.size) :
    (listFlush l).2.2.size = 0 ∧
    (listFlush l).2.2.iNext
      = l.iNext.map (fun _ => ({ pos := 0, prev := 0 } : ListIterator)) ∧
    (listFlush l).2.1 = (if l.fDel then l.elems else []) ∧
    (listFlush l).1 = (if l.fDel then (l.size : Int) else 0) := by
  refine ⟨rfl, rfl, ?_, rfl⟩
  simp only [listFlush]
  rw [← hwf, List.take_length]

/-- C6 amended witness: flushing the concrete destructor list `[8, 9]`. -/
theorem flush_behavior_witness :
    twoWithDel.elems.length = twoWithDel.size ∧
    ((listFlush twoWithDel).2.2.size = 0 ∧
     (listFlush twoWithDel).2.2.iNext
       = twoWithDel.iNext.map (fun _ => ({ pos := 0, prev := 0 } : ListIterator)) ∧
     (listFlush twoWithDel).2.1 = (if twoWithDel.fDel then twoWithDel.elems else []) ∧
     (listFlush twoWithDel).1
       = (if twoWithDel.fDel then (twoWithDel.size : Int) else 0)) :=
  ⟨by decide, flush_behavior twoWithDel (by decide)⟩

/-- C7 counterexample: on the one-element list `[5]` whose cursor has
advanced once, both sort and flip take the `size ≤ 1` early return and leave
the cursor at `⟨1, 0⟩` — not the fresh state the claim promises regardless
of size. -/
theorem sort_flip_skip_reset_on_small_list :
    oneAdvanced.iNext = [{ pos := 1, prev := 0 }] ∧
    listSort id oneAdvanced = oneAdvanced ∧
    listFlip oneAdvanced = oneAdvanced ∧
    ¬ (∀ j ∈ (listSort id oneAdvanced).iNext, j.pos = 0 ∧ j.prev = 0) ∧
    ¬ (∀ j ∈ (listFlip oneAdvanced).iNext, j.pos = 0 ∧ j.prev = 0) := by
  decide

/-- C7 amended: sort and flip reset every bound iterator to the fresh state
only when the list holds at least two elements; for `size ≤ 1` both return
early without touching the list or its iterators. -/
theorem sort_flip_reset_when_large (l : Xlist H) (q : List H → List H)
    (h : 2 ≤ l.size) :
    (listSort q l).iNext
      = l.iNext.map (fun _ => ({ pos := 0, prev := 0 } : ListIterator)) ∧
    (listFlip l).iNext
      = l.iNext.map (fun _ => ({ pos := 0, prev := 0 } : ListIterator)) ∧
    (∀ l' : Xlist H, l'.size ≤ 1 → listSort q l' = l' ∧ listFlip l' = l') := by
  have h1 : ¬ l.size ≤ 1 := by omega
  refine ⟨?_, ?_, ?_⟩
  · unfold listSort
    rw [if_neg h1]
  · unfold listFlip
    rw [if_neg h1]
  · intro l' h'
    constructor
    · unfold listSort
      rw [if_pos h']
    · unfold listFlip
      rw [if_pos h']

/-- C7 amended witness: the concrete two-element list `[1, 2]` with cursor
`⟨2, 1⟩` is reset by sort and flip, and any concrete one-element list is
left alone. -/
theorem sort_flip_reset_when_large_witness :
    2 ≤ twoWithCursor.size ∧
    ((listSort id twoWithCursor).iNext
       = twoWithCursor.iNext.map (fun _ => ({ pos := 0, prev := 0 } : ListIterator)) ∧
     (listFlip twoWithCursor).iNext
       = twoWithCursor.iNext.map (fun _ => ({ pos := 0, prev := 0 } : ListIterator)) ∧
     (listSort id oneAdvanced = oneAdvanced ∧ listFlip oneAdvanced = oneAdvanced)) :=
  ⟨by decide,
   ⟨(sort_flip_reset_when_large twoWithCursor id (by decide)).1,
    (sort_flip_reset_when_large twoWithCursor id (by decide)).2.1,
    (sort_flip_reset_when_large twoWithCursor id (by decide)).2.2 oneAdvanced
      (by decide)⟩⟩

/-- C8 counterexample: shallow-copying an empty list does not produce a
copy at all — `_list_reserve(m, 0)` rejects `n = 0 ≤ capacity = 0` with
`-1`, so `list_shallow_copy` returns null. -/
theorem shallow_copy_of_empty_is_none :
    (listCreate false : Xlist Nat).size = 0 ∧
    shallowCopy allocT (listCreate false : Xlist Nat) = none := by
  decide

/-- C8 amended: for a non-empty list, shallow copy produces a new list with
no destructor and no bound iterators whose occupied slots are a snapshot of
the original's, so a full traversal of the copy yields the same handle
sequence as one of the original at the moment of copy; the copy is a
separate value (the slots are copied, not shared), so later mutation of the
original cannot affect it.  For an empty list the copy is null instead. -/
theorem shallow_copy_nonempty_snapshot (l : Xlist H)
    (hwf : l.elems.length = l.size) (hpos : 0 < l.size) :
    ∃ m : Xlist H, shallowCopy allocT l = some m ∧ m.fDel = false ∧
      m.size = l.size ∧ m.iNext = [] ∧ m.arr = some l.elems ∧
      traverse m = traverse l := by
  have htake : l.elems.take l.size = l.elems := by
    rw [← hwf, List.take_length]
  have hres : listReserve allocT (listCreate false : Xlist H) (l.size : Int) =
      ((l.size : Int),
       { arr := some ([] : List H), fDel := false, size := 0,
         capacity := l.size, iNext := [] }) := by
    unfold listReserve listCreate
    rw [if_neg (by show ¬ ((l.size : Int) ≤ ((0 : Nat) : Int)); omega),
        if_pos (by simp [allocT])]
    simp [Xlist.elems]
  refine ⟨{ arr := some l.elems, fDel := false, size := l.size,
            capacity := l.size, iNext := [] }, ?_, rfl, rfl, rfl, rfl, ?_⟩
  · unfold shallowCopy
    rw [hres, if_neg (by show ¬ ((l.size : Int) < 0); omega), htake]
  · unfold traverse
    have hc := runIter_congr
      { arr := some l.elems, fDel := false, size := l.size,
        capacity := l.size, iNext := [] } l rfl rfl (l.size + 1)
      { pos := 0, prev := 0 }
    exact hc

/-- C8 amended witness: the concrete two-element list `[1, 2]`. -/
theorem shallow_copy_nonempty_snapshot_witness :
    (twoNoDel.elems.length = twoNoDel.size ∧ 0 < twoNoDel.size) ∧
    (∃ m : Xlist Nat, shallowCopy allocT twoNoDel = some m ∧ m.fDel = false ∧
      m.size = twoNoDel.size ∧ m.iNext = [] ∧ m.arr = some twoNoDel.elems ∧
      traverse m = traverse twoNoDel) :=
  ⟨⟨by decide, by decide⟩,
   shallow_copy_nonempty_snapshot twoNoDel (by decide) (by decide)⟩

/-- C9: prepending (or pushing) onto a list bumps a fresh cursor's two
indices from 0 to 1 — the insert repair at index 0 fires on both — so its
next advance yields the element that was at the head before the prepend
(slot 0 of the old occupied slots), not the prepended handle: fresh
iterators never yield elements prepended after their creation. -/
theorem prepend_skips_fresh_iterator (l : Xlist H) (x : H)
    (hwf : l.elems.length = l.size) :
    repairIns 0 { pos := 0, prev := 0 } = { pos := 1, prev := 1 } ∧
    (listPrepend allocT l x).2.iNext = l.iNext.map (repairIns 0) ∧
    (nextLocked (listPrepend allocT l x).2 { pos := 1, prev := 1 }).1
      = l.elems.get? 0 ∧
    listPush allocT l x = listPrepend allocT l x := by
  obtain ⟨h1, h2, h3, h4, h5⟩ := nodeCreate_allocT_spec l 0 x (Nat.zero_le _)
  have hP : listPrepend allocT l x = nodeCreate allocT l 0 x := rfl
  have hel : (nodeCreate allocT l 0 x).2.elems = x :: l.elems := by
    simp only [Xlist.elems]
    rw [h3]
    simp [List.insertIdx_zero, Xlist.elems]
  rw [hP]
  refine ⟨rfl, h4, ?_, rfl⟩
  unfold nextLocked
  rcases Nat.eq_zero_or_pos l.size with hz | hp
  · rw [if_neg (by rw [h2]; show ¬ ((1 : Nat) < l.size + 1); omega)]
    have hnil : l.elems = [] := List.length_eq_zero.mp (by omega)
    simp [hnil]
  · rw [if_pos (by rw [h2]; show (1 : Nat) < l.size + 1; omega)]
    simp [hel]

/-- C9 witness: prepending 9 onto the concrete list `[1, 2]`. -/
theorem prepend_skips_fresh_iterator_witness :
    twoNoDel.elems.length = twoNoDel.size ∧
    (repairIns 0 { pos := 0, prev := 0 } = { pos := 1, prev := 1 } ∧
     (listPrepend allocT twoNoDel 9).2.iNext = twoNoDel.iNext.map (repairIns 0) ∧
     (nextLocked (listPrepend allocT twoNoDel 9).2 { pos := 1, prev := 1 }).1
       = twoNoDel.elems.get? 0 ∧
     listPush allocT twoNoDel 9 = listPrepend allocT twoNoDel 9) :=
  ⟨by decide, prepend_skips_fresh_iterator twoNoDel 9 (by decide)⟩

/-- C10: `list_count` returns 0 on a null list handle and the resident
element count on any live list. -/
theorem count_none_and_some :
    listCount (none : Option (Xlist H)) = 0 ∧
    ∀ l : Xlist H, listCount (some l) = (l.size : Int) := by
  exact ⟨rfl, fun _ => rfl⟩

/-- C10 witness: the count of a null handle and of the concrete list
`[1, 2, 3]`. -/
theorem count_none_and_some_witness :
    listCount (none : Option (Xlist Nat)) = 0 ∧
    listCount (some sampleXYZ) = (sampleXYZ.size : Int) :=
  ⟨(count_none_and_some (H := Nat)).1, (count_none_and_some (H := Nat)).2 sampleXYZ⟩

end SlurmList
